import Mathlib

/-!
# Verification of the notion-cli data-transcoding core

A shallow embedding, in Lean 4, of the pure transcoding functions of the
`notion-cli` repository: the property codec (`buildPropertyValue` /
`extractPropertyValue` in `cmd/page.go`), the filter compiler (`parseFilter` /
`buildFilter` in `cmd/db.go`), the query-filter combiner (`db query`), the
markdown-to-blocks parser and the pagination loop (`fetchBlockChildren`), and
the identifier resolver (`internal/util/url.go`).

Modelling conventions:
* Go strings are modelled as `List Char` (`GoStr`).  All inputs appearing in
  the theorems are ASCII, where Go's byte-oriented indexing and the character
  model coincide; every Go string operation used by the embedded functions
  (prefix tests, substring search, splitting at a found occurrence, splitting
  on a one-character separator, trimming) respects UTF-8 rune boundaries.
* Go `map[string]interface{}` values are modelled as association lists
  `List (GoStr × JValue)` with first-match lookup; the embedded code never
  builds a map with duplicate keys.
* JSON numbers (Go `float64`) are carried symbolically as their source text
  (`JValue.num`); no claim under verification compares floating-point values.
* Operations that can panic in Go (string slicing with out-of-range bounds)
  are modelled in `Except GoPanic`.
-/

namespace NotionCli

/-- Go strings, modelled as lists of characters. -/
abbrev GoStr := List Char

/-- Conversion from Lean string literals to the Go-string model. -/
def str (s : String) : GoStr := s.data

/-- `strings.HasPrefix(s, pre)`. -/
def goHasPrefix : GoStr → GoStr → Bool
  | _, [] => true
  | [], _ :: _ => false
  | c :: cs, p :: ps => p = c && goHasPrefix cs ps

/-- Helper for `strings.Index`: index (counted from `i`) of the first
position of `s` at which `sub` is a prefix. -/
def goIndexAux (sub : GoStr) : GoStr → Nat → Option Nat
  | s, i =>
    if goHasPrefix s sub then some i
    else
      match s with
      | [] => none
      | _ :: rest => goIndexAux sub rest (i + 1)

/-- `strings.Index(s, sub)`: position of the first occurrence of `sub` in
`s`, or `none` where Go returns `-1`. -/
def goIndex (s sub : GoStr) : Option Nat := goIndexAux sub s 0

/-- `strings.Contains(s, sub)`. -/
def goContains (s sub : GoStr) : Bool := (goIndex s sub).isSome

/-- `unicode.IsSpace` on the characters relevant to `strings.TrimSpace`
(ASCII whitespace plus NEL and NBSP, the Latin-1 space characters). -/
def goIsSpace (c : Char) : Bool :=
  c = ' ' || c = '\t' || c = '\n' || c = Char.ofNat 11 || c = Char.ofNat 12 ||
  c = '\r' || c = Char.ofNat 0x85 || c = Char.ofNat 0xA0

/-- `strings.TrimSpace`. -/
def goTrimSpace (s : GoStr) : GoStr :=
  ((s.dropWhile goIsSpace).reverse.dropWhile goIsSpace).reverse

/-- `strings.Split(s, sep)` for a one-character separator `sep`.  Go's
`Split` of the empty string yields `[""]`, matching the `[[]]` base case. -/
def goSplitChar (sep : Char) : GoStr → List GoStr
  | [] => [[]]
  | c :: rest =>
    match goSplitChar sep rest with
    | [] => [[]]
    | h :: t => if c = sep then [] :: h :: t else (c :: h) :: t

/-- JSON-shaped dynamic values: the model of Go `interface{}` holding
decoded JSON.  Numbers are carried symbolically as their source text. -/
inductive JValue where
  | str : GoStr → JValue
  | num : GoStr → JValue
  | bool : Bool → JValue
  | null : JValue
  | arr : List JValue → JValue
  | obj : List (GoStr × JValue) → JValue

mutual

/-- Boolean structural equality on `JValue` (the derive handler does not
support this nested inductive). -/
def jeq : JValue → JValue → Bool
  | .str a, .str b => a = b
  | .num a, .num b => a = b
  | .bool a, .bool b => a = b
  | .null, .null => true
  | .arr a, .arr b => jeqList a b
  | .obj a, .obj b => jeqObj a b
  | _, _ => false

/-- Boolean structural equality on lists of `JValue`. -/
def jeqList : List JValue → List JValue → Bool
  | [], [] => true
  | x :: xs, y :: ys => jeq x y && jeqList xs ys
  | _, _ => false

/-- Boolean structural equality on `JValue` association lists. -/
def jeqObj : List (GoStr × JValue) → List (GoStr × JValue) → Bool
  | [], [] => true
  | (k1, v1) :: xs, (k2, v2) :: ys => k1 = k2 && jeq v1 v2 && jeqObj xs ys
  | _, _ => false

end

mutual

/-- `jeq` decides propositional equality. -/
theorem jeq_iff : ∀ a b, jeq a b = true ↔ a = b
  | .str a, .str b => by simp [jeq]
  | .num a, .num b => by simp [jeq]
  | .bool a, .bool b => by simp [jeq]
  | .null, .null => by simp [jeq]
  | .arr a, .arr b => by simp [jeq, jeqList_iff a b]
  | .obj a, .obj b => by simp [jeq, jeqObj_iff a b]
  | .str _, .num _ => by simp [jeq]
  | .str _, .bool _ => by simp [jeq]
  | .str _, .null => by simp [jeq]
  | .str _, .arr _ => by simp [jeq]
  | .str _, .obj _ => by simp [jeq]
  | .num _, .str _ => by simp [jeq]
  | .num _, .bool _ => by simp [jeq]
  | .num _, .null => by simp [jeq]
  | .num _, .arr _ => by simp [jeq]
  | .num _, .obj _ => by simp [jeq]
  | .bool _, .str _ => by simp [jeq]
  | .bool _, .num _ => by simp [jeq]
  | .bool _, .null => by simp [jeq]
  | .bool _, .arr _ => by simp [jeq]
  | .bool _, .obj _ => by simp [jeq]
  | .null, .str _ => by simp [jeq]
  | .null, .num _ => by simp [jeq]
  | .null, .bool _ => by simp [jeq]
  | .null, .arr _ => by simp [jeq]
  | .null, .obj _ => by simp [jeq]
  | .arr _, .str _ => by simp [jeq]
  | .arr _, .num _ => by simp [jeq]
  | .arr _, .bool _ => by simp [jeq]
  | .arr _, .null => by simp [jeq]
  | .arr _, .obj _ => by simp [jeq]
  | .obj _, .str _ => by simp [jeq]
  | .obj _, .num _ => by simp [jeq]
  | .obj _, .bool _ => by simp [jeq]
  | .obj _, .null => by simp [jeq]
  | .obj _, .arr _ => by simp [jeq]

/-- `jeqList` decides propositional equality. -/
theorem jeqList_iff : ∀ xs ys, jeqList xs ys = true ↔ xs = ys
  | [], [] => by simp [jeqList]
  | [], _ :: _ => by simp [jeqList]
  | _ :: _, [] => by simp [jeqList]
  | x :: xs, y :: ys => by simp [jeqList, jeq_iff x y, jeqList_iff xs ys]

/-- `jeqObj` decides propositional equality. -/
theorem jeqObj_iff : ∀ xs ys, jeqObj xs ys = true ↔ xs = ys
  | [], [] => by simp [jeqObj]
  | [], _ :: _ => by simp [jeqObj]
  | _ :: _, [] => by simp [jeqObj]
  | (_, v1) :: xs, (_, v2) :: ys => by
      simp [jeqObj, jeq_iff v1 v2, jeqObj_iff xs ys, and_assoc]

end

instance : DecidableEq JValue := fun a b => decidable_of_iff _ (jeq_iff a b)

/-- The model of Go `map[string]interface{}`: an association list with
first-match lookup. -/
abbrev JObjT := List (GoStr × JValue)

/-- Go map lookup `m[k]` (with the `ok` flag encoded as `Option`). -/
def jGet : JObjT → GoStr → Option JValue
  | [], _ => none
  | (k2, v) :: rest, k => if k2 = k then some v else jGet rest k

/-- Go map assignment `m[k] = v`: replaces the binding when present,
otherwise appends it. -/
def jSet (m : JObjT) (k : GoStr) (v : JValue) : JObjT :=
  if (jGet m k).isSome then
    m.map fun kv => if kv.1 = k then (k, v) else kv
  else m ++ [(k, v)]

/-- The Go pattern `s, _ := m[k].(string)`: lookup plus a string type
assertion defaulting to the zero value `""`. -/
def getStrD (m : JObjT) (k : GoStr) : GoStr :=
  match jGet m k with
  | some (.str s) => s
  | _ => []

/-- The Go pattern `a, _ := m[k].([]interface{})` defaulting to `nil`. -/
def getArrD (m : JObjT) (k : GoStr) : List JValue :=
  match jGet m k with
  | some (.arr a) => a
  | _ => []

/-- The Go pattern `b, _ := m[k].(bool)` defaulting to `false`. -/
def getBoolD (m : JObjT) (k : GoStr) : Bool :=
  match jGet m k with
  | some (.bool b) => b
  | _ => false

/-! ## Go `fmt.Sprintf("%v", ·)` on dynamic values -/

/-- Lexicographic boolean order on Go strings, by character code (Go's
`fmt` package prints map keys in sorted order). -/
def goStrLeB : GoStr → GoStr → Bool
  | [], _ => true
  | _ :: _, [] => false
  | a :: as, b :: bs => if a = b then goStrLeB as bs else decide (a < b)

/-- Insertion step of the key-sort used when printing maps. -/
def insertByKey (x : GoStr × GoStr) : List (GoStr × GoStr) → List (GoStr × GoStr)
  | [] => [x]
  | y :: ys => if goStrLeB x.1 y.1 then x :: y :: ys else y :: insertByKey x ys

/-- Insertion sort of `(key, rendered)` pairs by key. -/
def sortByKey : List (GoStr × GoStr) → List (GoStr × GoStr)
  | [] => []
  | x :: xs => insertByKey x (sortByKey xs)

mutual

/-- Go `fmt.Sprintf("%v", v)` on JSON-shaped values: strings verbatim,
numbers by their source text, booleans as `true`/`false`, `nil` as
`<nil>`, slices space-separated in brackets, maps as `map[k:v ...]` with
keys in sorted order. -/
def goSprintV : JValue → GoStr
  | .str s => s
  | .num s => s
  | .bool b => if b then str "true" else str "false"
  | .null => str "<nil>"
  | .arr xs => '[' :: (List.intercalate [' '] (goSprintList xs) ++ [']'])
  | .obj m =>
    str "map[" ++ (List.intercalate [' '] ((sortByKey (goSprintObj m)).map (·.2)) ++ [']'])

/-- Renders each element of a slice. -/
def goSprintList : List JValue → List GoStr
  | [] => []
  | x :: xs => goSprintV x :: goSprintList xs

/-- Renders each map entry as `(key, key:value)`. -/
def goSprintObj : List (GoStr × JValue) → List (GoStr × GoStr)
  | [] => []
  | (k, v) :: rest => (k, k ++ ':' :: goSprintV v) :: goSprintObj rest

end

/-! ## Property codec (`cmd/page.go`) -/

/-- ASCII digit test (`c >= '0' && c <= '9'`). -/
def goIsDigit (c : Char) : Bool := '0' ≤ c && c ≤ '9'

/-- ASCII lower-casing, used for the case-insensitive special float names. -/
def goToLowerAscii (c : Char) : Char :=
  if 'A' ≤ c ∧ c ≤ 'Z' then Char.ofNat (c.toNat + 32) else c

/-- Success predicate of `strconv.ParseFloat` as called through
`json.Number.Float64`: an optional sign followed by (case-insensitively)
`inf`/`infinity`/`nan`, or a decimal mantissa containing at least one
digit with an optional signed exponent.  Hexadecimal floats and
digit-separating underscores are omitted from the model; no claim under
verification exercises them, and no theorem compares parsed numbers. -/
def goParseFloatOk (s : GoStr) : Bool :=
  let t := match s with
    | c :: rest => if c = '+' ∨ c = '-' then rest else s
    | [] => s
  let low := t.map goToLowerAscii
  if low = str "inf" ∨ low = str "infinity" ∨ low = str "nan" then true
  else
    let intPart := t.takeWhile goIsDigit
    let t1 := t.dropWhile goIsDigit
    let fracPart := match t1 with
      | '.' :: r => r.takeWhile goIsDigit
      | _ => []
    let t2 := match t1 with
      | '.' :: r => r.dropWhile goIsDigit
      | _ => t1
    (!intPart.isEmpty || !fracPart.isEmpty) &&
      (match t2 with
       | [] => true
       | e :: r =>
         (e == 'e' || e == 'E') &&
           (let r2 := match r with
              | c :: rr => if c = '+' ∨ c = '-' then rr else r
              | [] => r
            !r2.isEmpty && r2.all goIsDigit))

/-- `buildPropertyValue` (cmd/page.go): converts a string value to a
Notion property value based on the declared type. -/
def buildPropertyValue (propType value : GoStr) : JObjT :=
  if propType = str "title" then
    [(str "title", .arr [.obj [(str "text", .obj [(str "content", .str value)])]])]
  else if propType = str "rich_text" then
    [(str "rich_text", .arr [.obj [(str "text", .obj [(str "content", .str value)])]])]
  else if propType = str "number" then
    if goParseFloatOk value then [(str "number", .num value)]
    else [(str "number", .str value)]
  else if propType = str "select" then
    [(str "select", .obj [(str "name", .str value)])]
  else if propType = str "multi_select" then
    [(str "multi_select",
      .arr ((goSplitChar ',' value).map fun n => .obj [(str "name", .str (goTrimSpace n))]))]
  else if propType = str "status" then
    [(str "status", .obj [(str "name", .str value)])]
  else if propType = str "date" then
    [(str "date", .obj [(str "start", .str value)])]
  else if propType = str "checkbox" then
    [(str "checkbox", .bool (value == str "true" || value == str "1" || value == str "yes"))]
  else if propType = str "url" then
    [(str "url", .str value)]
  else if propType = str "email" then
    [(str "email", .str value)]
  else if propType = str "phone_number" then
    [(str "phone_number", .str value)]
  else
    [(str "rich_text", .arr [.obj [(str "text", .obj [(str "content", .str value)])]])]

/-- `extractPlainTextFromRichText` (cmd/page.go): joins the `plain_text`
fields of the rich-text runs with no separator, skipping malformed runs. -/
def extractPlainTextFromRichText (arr : List JValue) : GoStr :=
  List.intercalate [] (arr.filterMap fun t =>
    match t with
    | .obj m =>
      match jGet m (str "plain_text") with
      | some (.str pt) => some pt
      | _ => none
    | _ => none)

/-- `extractPropertyValue` (cmd/page.go): extracts a human-readable value
from a Notion property map, dispatching on its `type` tag and returning
`""` for unrecognized tags and failed type assertions. -/
def extractPropertyValue (prop : JObjT) : GoStr :=
  let propType := getStrD prop (str "type")
  if propType = str "title" then
    match jGet prop (str "title") with
    | some (.arr a) => extractPlainTextFromRichText a
    | _ => []
  else if propType = str "rich_text" then
    match jGet prop (str "rich_text") with
    | some (.arr a) => extractPlainTextFromRichText a
    | _ => []
  else if propType = str "number" then
    match jGet prop (str "number") with
    | some .null => []
    | some v => goSprintV v
    | none => []
  else if propType = str "select" then
    match jGet prop (str "select") with
    | some (.obj sel) => getStrD sel (str "name")
    | _ => []
  else if propType = str "multi_select" then
    match jGet prop (str "multi_select") with
    | some (.arr a) =>
      List.intercalate (str ", ") (a.filterMap fun item =>
        match item with
        | .obj m => some (getStrD m (str "name"))
        | _ => none)
    | _ => []
  else if propType = str "status" then
    match jGet prop (str "status") with
    | some (.obj s) => getStrD s (str "name")
    | _ => []
  else if propType = str "date" then
    match jGet prop (str "date") with
    | some (.obj d) =>
      let start := getStrD d (str "start")
      let ed := getStrD d (str "end")
      if ed ≠ [] then start ++ str " → " ++ ed else start
    | _ => []
  else if propType = str "checkbox" then
    match jGet prop (str "checkbox") with
    | some (.bool b) => if b then str "✓" else str "✗"
    | _ => []
  else if propType = str "url" then
    match jGet prop (str "url") with
    | some (.str u) => u
    | _ => []
  else if propType = str "email" then
    match jGet prop (str "email") with
    | some (.str e) => e
    | _ => []
  else if propType = str "phone_number" then
    match jGet prop (str "phone_number") with
    | some (.str p) => p
    | _ => []
  else if propType = str "people" then
    match jGet prop (str "people") with
    | some (.arr a) =>
      List.intercalate (str ", ") (a.filterMap fun item =>
        match item with
        | .obj m => some (getStrD m (str "name"))
        | _ => none)
    | _ => []
  else if propType = str "relation" then
    match jGet prop (str "relation") with
    | some (.arr a) =>
      List.intercalate (str ", ") (a.filterMap fun item =>
        match item with
        | .obj m => some (getStrD m (str "id"))
        | _ => none)
    | _ => []
  else if propType = str "formula" then
    match jGet prop (str "formula") with
    | some (.obj f) =>
      match jGet f (getStrD f (str "type")) with
      | some v => goSprintV v
      | none => []
    | _ => []
  else if propType = str "rollup" then
    match jGet prop (str "rollup") with
    | some (.obj r) =>
      match jGet r (getStrD r (str "type")) with
      | some v => goSprintV v
      | none => []
    | _ => []
  else if propType = str "created_time" then
    match jGet prop (str "created_time") with
    | some (.str t) => t
    | _ => []
  else if propType = str "last_edited_time" then
    match jGet prop (str "last_edited_time") with
    | some (.str t) => t
    | _ => []
  else if propType = str "created_by" ∨ propType = str "last_edited_by" then
    match jGet prop propType with
    | some (.obj u) => getStrD u (str "name")
    | _ => []
  else []

/-! ## Filter compiler (`cmd/db.go`) -/

/-- `mapTextOp` (cmd/db.go). -/
def mapTextOp (op : GoStr) : GoStr :=
  if op = str "eq" then str "equals"
  else if op = str "neq" then str "does_not_equal"
  else if op = str "contains" then str "contains"
  else if op = str "not_contains" then str "does_not_contain"
  else str "equals"

/-- `mapNumberOp` (cmd/db.go). -/
def mapNumberOp (op : GoStr) : GoStr :=
  if op = str "eq" then str "equals"
  else if op = str "neq" then str "does_not_equal"
  else if op = str "gt" then str "greater_than"
  else if op = str "gte" then str "greater_than_or_equal_to"
  else if op = str "lt" then str "less_than"
  else if op = str "lte" then str "less_than_or_equal_to"
  else str "equals"

/-- `mapDateOp` (cmd/db.go). -/
def mapDateOp (op : GoStr) : GoStr :=
  if op = str "eq" then str "equals"
  else if op = str "gt" ∨ op = str "gte" then str "on_or_after"
  else if op = str "lt" ∨ op = str "lte" then str "on_or_before"
  else if op = str "neq" then str "does_not_equal"
  else str "equals"

/-- `buildFilter` (cmd/db.go): creates a Notion API filter based on the
property type and the generic operator name. -/
def buildFilter (propName propType op value : GoStr) : JObjT :=
  let filter : JObjT := [(str "property", .str propName)]
  if propType = str "title" ∨ propType = str "rich_text" ∨ propType = str "url" ∨
      propType = str "email" ∨ propType = str "phone_number" then
    jSet filter propType (.obj [(mapTextOp op, .str value)])
  else if propType = str "number" then
    let numVal : JValue := if goParseFloatOk value then .num value else .str value
    jSet filter (str "number") (.obj [(mapNumberOp op, numVal)])
  else if propType = str "select" then
    let selectOp := if op = str "neq" then str "does_not_equal" else str "equals"
    jSet filter (str "select") (.obj [(selectOp, .str value)])
  else if propType = str "multi_select" then
    let msOp := if op = str "not_contains" ∨ op = str "neq" then str "does_not_contain"
                else str "contains"
    jSet filter (str "multi_select") (.obj [(msOp, .str value)])
  else if propType = str "status" then
    let statusOp := if op = str "neq" then str "does_not_equal" else str "equals"
    jSet filter (str "status") (.obj [(statusOp, .str value)])
  else if propType = str "date" ∨ propType = str "created_time" ∨
      propType = str "last_edited_time" then
    jSet filter propType (.obj [(mapDateOp op, .str value)])
  else if propType = str "checkbox" then
    let boolVal := value == str "true" || value == str "1" || value == str "yes"
    jSet filter (str "checkbox") (.obj [(str "equals", .bool boolVal)])
  else
    jSet filter (str "rich_text") (.obj [(mapTextOp op, .str value)])

/-- One entry of the operator table in `parseFilter` (cmd/db.go): the
textual token and its generic Notion operator name. -/
structure OpEntry where
  op : GoStr
  notion : GoStr
deriving DecidableEq

/-- The operator table of `parseFilter` (cmd/db.go), in source order:
`>=`, `<=`, `!=`, `~=`, `!~=`, `>`, `<`, `=`. -/
def operators : List OpEntry :=
  [⟨str ">=", str "gte"⟩, ⟨str "<=", str "lte"⟩, ⟨str "!=", str "neq"⟩,
   ⟨str "~=", str "contains"⟩, ⟨str "!~=", str "not_contains"⟩,
   ⟨str ">", str "gt"⟩, ⟨str "<", str "lt"⟩, ⟨str "=", str "eq"⟩]

/-- The two error outcomes of `parseFilter` (cmd/db.go): the
`property %q not found in database` and `no valid operator found in
expression` errors. -/
inductive FilterError where
  | unknownProperty (name : GoStr)
  | noOperatorFound
deriving DecidableEq

/-- The body of one iteration of `parseFilter`'s operator loop
(cmd/db.go): split the expression at index `idx` (the first occurrence
of the operator), trim both sides, look the property up in the schema,
and build the filter. -/
def applyOpAt (expr : GoStr) (dbProps : JObjT) (e : OpEntry) (idx : Nat) :
    Except FilterError JObjT :=
  let propName := goTrimSpace (expr.take idx)
  let value := goTrimSpace (expr.drop (idx + e.op.length))
  match jGet dbProps propName with
  | some (.obj propDef) =>
    .ok (buildFilter propName (getStrD propDef (str "type")) e.notion value)
  | _ => .error (.unknownProperty propName)

/-- The operator loop of `parseFilter` (cmd/db.go): tries each operator
in table order, splitting the expression at the first occurrence of the
first operator whose token occurs. -/
def parseFilterLoop (expr : GoStr) (dbProps : JObjT) : List OpEntry → Except FilterError JObjT
  | [] => .error .noOperatorFound
  | e :: rest =>
    match goIndex expr e.op with
    | none => parseFilterLoop expr dbProps rest
    | some idx => applyOpAt expr dbProps e idx

/-- `parseFilter` (cmd/db.go): parses a filter expression like
`Status=Done` into a Notion filter object against the database schema. -/
def parseFilter (expr : GoStr) (dbProps : JObjT) : Except FilterError JObjT :=
  parseFilterLoop expr dbProps operators

/-- The filter-combining step of `db query` (cmd/db.go, `dbQueryCmd`):
a single compiled condition is used unwrapped, two or more are wrapped
in `{and: [...]}`; with no filters, no filter is set. -/
def combineFilters : List JValue → Option JValue
  | [] => none
  | [c] => some c
  | cs => some (.obj [(str "and", .arr cs)])

/-! ## Markdown → blocks parser (`parseMarkdownToBlocks`) -/

/-- Observable Go runtime panics of the embedded code. -/
inductive GoPanic where
  | sliceOutOfRange
deriving DecidableEq

/-- Go string slicing `s[lo:hi]`: panics when the bounds are out of
range for the string. -/
def goSlice (s : GoStr) (lo hi : Nat) : Except GoPanic GoStr :=
  if lo ≤ hi ∧ hi ≤ s.length then .ok ((s.drop lo).take (hi - lo))
  else .error .sliceOutOfRange

/-- `makeTextBlock` (markdown parser, unnamed/part_003): wraps the
trimmed text as a single rich-text run under the block type's payload
key. -/
def makeTextBlock (blockType text : GoStr) : JObjT :=
  [(str "object", .str (str "block")),
   (str "type", .str blockType),
   (blockType, .obj [(str "rich_text",
      .arr [.obj [(str "text", .obj [(str "content", .str (goTrimSpace text))])]])])]

/-- A to-do block: `makeTextBlock "to_do"` followed by the source's
`block["to_do"].(map)["checked"] = checked` assignment. -/
def todoBlock (text : GoStr) (checked : Bool) : JObjT :=
  [(str "object", .str (str "block")),
   (str "type", .str (str "to_do")),
   (str "to_do", .obj (jSet
      [(str "rich_text",
        .arr [.obj [(str "text", .obj [(str "content", .str (goTrimSpace text))])]])]
      (str "checked") (.bool checked)))]

/-- The fenced code block built by the parser (content joined with
newlines, not trimmed). -/
def codeBlock (content lang : GoStr) : JObjT :=
  [(str "object", .str (str "block")),
   (str "type", .str (str "code")),
   (str "code", .obj
      [(str "rich_text",
        .arr [.obj [(str "text", .obj [(str "content", .str content)])]]),
       (str "language", .str lang)])]

/-- The quote / divider / paragraph rules of the parser: the
classification applied to a line that matched none of the earlier
rules. -/
def lateLineBlock (line : GoStr) : JObjT :=
  if goHasPrefix line (str "> ") then
    makeTextBlock (str "quote") (line.drop 2)
  else if line = str "---" ∨ line = str "***" ∨ line = str "___" then
    [(str "object", .str (str "block")),
     (str "type", .str (str "divider")),
     (str "divider", .obj [])]
  else
    makeTextBlock (str "paragraph") line

/-- First character is an ASCII digit (`line[0] >= '0' && line[0] <= '9'`). -/
def headIsDigit : GoStr → Bool
  | c :: _ => goIsDigit c
  | [] => false

/-- The line loop of `parseMarkdownToBlocks` (unnamed/part_003),
classifying each line by the source's rules in order: code fence, blank,
headings, to-dos, bullets, numbered items (where `line[:5]` can panic on
a short line), then quote / divider / paragraph.  The loop advances the
line index on every iteration; the `fuel` argument (instantiated with
the number of lines, always sufficient since every step consumes at
least one line) makes the recursion structural. -/
def parseMDLinesFuel : Nat → List GoStr → Except GoPanic (List JObjT)
  | _, [] => .ok []
  | 0, _ :: _ => .ok []
  | fuel + 1, line :: rest =>
    if goHasPrefix line (str "```") then
      let lang0 := goTrimSpace (line.drop 3)
      let lang := if lang0 = [] then str "plain text" else lang0
      let codeLines := rest.takeWhile fun l => !goHasPrefix l (str "```")
      let rest2 := (rest.dropWhile fun l => !goHasPrefix l (str "```")).drop 1
      (parseMDLinesFuel fuel rest2).map
        (codeBlock (List.intercalate ['\n'] codeLines) lang :: ·)
    else if goTrimSpace line = [] then
      parseMDLinesFuel fuel rest
    else if goHasPrefix line (str "### ") then
      (parseMDLinesFuel fuel rest).map (makeTextBlock (str "heading_3") (line.drop 4) :: ·)
    else if goHasPrefix line (str "## ") then
      (parseMDLinesFuel fuel rest).map (makeTextBlock (str "heading_2") (line.drop 3) :: ·)
    else if goHasPrefix line (str "# ") then
      (parseMDLinesFuel fuel rest).map (makeTextBlock (str "heading_1") (line.drop 2) :: ·)
    else if goHasPrefix line (str "- [ ] ") then
      (parseMDLinesFuel fuel rest).map (todoBlock (line.drop 6) false :: ·)
    else if goHasPrefix line (str "- [x] ") ∨ goHasPrefix line (str "- [X] ") then
      (parseMDLinesFuel fuel rest).map (todoBlock (line.drop 6) true :: ·)
    else if goHasPrefix line (str "- ") ∨ goHasPrefix line (str "* ") then
      (parseMDLinesFuel fuel rest).map
        (makeTextBlock (str "bulleted_list_item") (line.drop 2) :: ·)
    else if 2 < line.length ∧ headIsDigit line then
      match goSlice line 0 5 with
      | .error e => .error e
      | .ok first5 =>
        if goContains first5 (str ". ") then
          (parseMDLinesFuel fuel rest).map
            (makeTextBlock (str "numbered_list_item")
              (line.drop ((goIndex line (str ". ")).getD 0 + 2)) :: ·)
        else
          (parseMDLinesFuel fuel rest).map (lateLineBlock line :: ·)
    else
      (parseMDLinesFuel fuel rest).map (lateLineBlock line :: ·)

/-- `parseMarkdownToBlocks` (unnamed/part_003): splits the content on
newlines and runs the line loop with sufficient fuel. -/
def parseMarkdownToBlocks (content : GoStr) : Except GoPanic (List JObjT) :=
  let lines := goSplitChar '\n' content
  parseMDLinesFuel lines.length lines

/-! ## Pagination aggregator (`fetchBlockChildren`, unnamed/part_003) -/

/-- One page of a paginated response, in the shape the loop reads back
out of the result map. -/
structure GoPage where
  results : List JValue
  hasMore : Bool
  nextCursor : GoStr
deriving DecidableEq

/-- The result map of one `GetBlockChildren` call carrying a page. -/
def pageToResult (p : GoPage) : JObjT :=
  [(str "results", .arr p.results),
   (str "has_more", .bool p.hasMore),
   (str "next_cursor", .str p.nextCursor)]

/-- The loop of `fetchBlockChildren` (unnamed/part_003): repeatedly
fetches through the injected fetch capability, appending each page's
results to the accumulator; stops after the first page unless `all` is
set, and otherwise continues while `has_more` holds, passing
`next_cursor` along.  The Go `for` loop is unbounded, so the model takes
a fuel bound; `none` means the bound was reached before the loop
stopped. -/
def fetchBlockChildrenLoop (fetch : GoStr → Except GoStr JObjT) :
    Nat → GoStr → Bool → List JValue → Option (Except GoStr (List JValue))
  | 0, _, _, _ => none
  | fuel + 1, currentCursor, all, acc =>
    match fetch currentCursor with
    | .error e => some (.error e)
    | .ok result =>
      let results := getArrD result (str "results")
      let allResults := acc ++ results
      let hasMore := getBoolD result (str "has_more")
      if !all || !hasMore then some (.ok allResults)
      else
        fetchBlockChildrenLoop fetch fuel (getStrD result (str "next_cursor")) all allResults

/-- `fetchBlockChildren` (unnamed/part_003) with the accumulator started
empty. -/
def fetchBlockChildren (fetch : GoStr → Except GoStr JObjT) (fuel : Nat)
    (cursor : GoStr) (all : Bool) : Option (Except GoStr (List JValue)) :=
  fetchBlockChildrenLoop fetch fuel cursor all []

/-! ## Identifier resolver (`internal/util/url.go`) -/

/-- The `[a-f0-9]` character class of the resolver's regexes. -/
def isHexDigitGo (c : Char) : Bool := ('a' ≤ c && c ≤ 'f') || ('0' ≤ c && c ≤ '9')

/-- The `[a-f0-9-]` character class. -/
def hexOrDash (c : Char) : Bool := isHexDigitGo c || c = '-'

/-- Consume exactly `n` `[a-f0-9]` characters, returning the remainder. -/
def takeHex (n : Nat) (s : GoStr) : Option GoStr :=
  if (s.take n).length = n ∧ (s.take n).all isHexDigitGo then some (s.drop n) else none

/-- Consume the `-?` of `uuidRe`; deterministic because `-` is not a hex
digit. -/
def optDash : GoStr → GoStr
  | c :: r => if c = '-' then r else c :: r
  | [] => []

/-- Anchored match of `uuidRe`
(`^[a-f0-9]{8}-?[a-f0-9]{4}-?[a-f0-9]{4}-?[a-f0-9]{4}-?[a-f0-9]{12}$`,
internal/util/url.go).  Note that every dash is optional in the
pattern. -/
def uuidReMatches (s : GoStr) : Bool :=
  (do
    let r1 ← takeHex 8 s
    let r2 ← takeHex 4 (optDash r1)
    let r3 ← takeHex 4 (optDash r2)
    let r4 ← takeHex 4 (optDash r3)
    let r5 ← takeHex 12 (optDash r4)
    if r5 = [] then some () else none).isSome

/-- Anchored match of `plainIDRe` (`^[a-f0-9]{32}$`). -/
def plainIDMatches (s : GoStr) : Bool := s.length == 32 && s.all isHexDigitGo

/-- The capture group `([a-f0-9]{32}|[a-f0-9-]{36})` of `notionURLRe`,
tried at a single position with the alternation preference of the
regex. -/
def tryCaptureAt (s : GoStr) : Option GoStr :=
  if (s.take 32).length = 32 ∧ (s.take 32).all isHexDigitGo then some (s.take 32)
  else if (s.take 36).length = 36 ∧ (s.take 36).all hexOrDash then some (s.take 36)
  else none

/-- The lazy `(?:.*?)` scan of `notionURLRe`: shortest skip first, where
`.` does not cross a newline. -/
def scanCapture : GoStr → Option GoStr
  | [] => none
  | c :: rest => tryCaptureAt (c :: rest) <|> (if c = '\n' then none else scanCapture rest)

/-- The capture group of `notionURLRe.FindStringSubmatch`
(`(?:notion\.so|notion\.site)/(?:.*?)([a-f0-9]{32}|[a-f0-9-]{36})`,
internal/util/url.go): leftmost-first search. -/
def findURLCapture : GoStr → Option GoStr
  | [] => none
  | s@(_ :: rest) =>
    (if goHasPrefix s (str "notion.so/") then scanCapture (s.drop 10)
     else if goHasPrefix s (str "notion.site/") then scanCapture (s.drop 12)
     else none) <|> findURLCapture rest

/-- `formatUUID` (internal/util/url.go): strips dashes and inserts them
at positions 8, 12, 16, 20 when exactly 32 characters remain. -/
def formatUUID (id0 : GoStr) : Except GoPanic GoStr :=
  let id := id0.filter fun c => c != '-'
  if id.length ≠ 32 then .ok id
  else do
    let a ← goSlice id 0 8
    let b ← goSlice id 8 12
    let c ← goSlice id 12 16
    let d ← goSlice id 16 20
    let e ← goSlice id 20 id.length
    pure (a ++ '-' :: b ++ '-' :: c ++ '-' :: d ++ '-' :: e)

/-- `ResolveID` (internal/util/url.go): extracts a Notion object ID from
a URL or raw ID string; unrecognized inputs pass through unchanged. -/
def ResolveID (input0 : GoStr) : Except GoPanic GoStr :=
  let input := goTrimSpace input0
  match (if goContains input (str "notion.so") || goContains input (str "notion.site")
         then findURLCapture input else none) with
  | some m => formatUUID m
  | none =>
    if uuidReMatches input then .ok input
    else if plainIDMatches input then formatUUID input
    else .ok input

/-! ## Spec-side helper definitions used by the claim statements -/

/-- The `type` discriminator that Notion API responses carry alongside
the payload key.  `buildPropertyValue` itself does not set it; adding it
reconstructs the wire shape that `extractPropertyValue` dispatches on. -/
def withTypeTag (t : GoStr) (m : JObjT) : JObjT := (str "type", .str t) :: m

/-- The option names stored in an encoded `multi_select` payload, in
order (`none` when the payload is missing or not an array). -/
def multiSelectNames (m : JObjT) : Option (List GoStr) :=
  match jGet m (str "multi_select") with
  | some (.arr a) =>
    some (a.map fun o => match o with | .obj e => getStrD e (str "name") | _ => [])
  | _ => none

/-- The type tags `extractPropertyValue` recognizes, in dispatch order. -/
def recognizedTags : List GoStr :=
  [str "title", str "rich_text", str "number", str "select", str "multi_select",
   str "status", str "date", str "checkbox", str "url", str "email",
   str "phone_number", str "people", str "relation", str "formula", str "rollup",
   str "created_time", str "last_edited_time", str "created_by", str "last_edited_by"]

/-- The dynamic-type assertion the branch of each recognized tag performs
on its payload (`number` performs none: any non-null payload passes). -/
def tagShapeOk (t : GoStr) (v : JValue) : Bool :=
  if t = str "title" ∨ t = str "rich_text" ∨ t = str "multi_select" ∨
      t = str "people" ∨ t = str "relation" then
    match v with | .arr _ => true | _ => false
  else if t = str "select" ∨ t = str "status" ∨ t = str "date" ∨ t = str "formula" ∨
      t = str "rollup" ∨ t = str "created_by" ∨ t = str "last_edited_by" then
    match v with | .obj _ => true | _ => false
  else if t = str "checkbox" then
    match v with | .bool _ => true | _ => false
  else if t = str "url" ∨ t = str "email" ∨ t = str "phone_number" ∨
      t = str "created_time" ∨ t = str "last_edited_time" then
    match v with | .str _ => true | _ => false
  else true

/-- The operator `parseFilter`'s loop selects: the first table entry
whose token occurs anywhere in the expression. -/
def selectedOp (expr : GoStr) : Option OpEntry :=
  operators.find? fun e => goContains expr e.op

/-- The trimmed left-hand side the loop derives for a selected operator:
everything before the operator's first occurrence. -/
def lhsName (expr : GoStr) (e : OpEntry) : GoStr :=
  goTrimSpace (expr.take ((goIndex expr e.op).getD 0))

/-- Whether the schema binds `k` to a property-definition object (the
`dbProps[propName].(map[string]interface{})` assertion in `parseFilter`). -/
def isObjBinding (m : JObjT) (k : GoStr) : Bool :=
  match jGet m k with
  | some (.obj _) => true
  | _ => false

/-- The results of the first page of a page list (empty for no pages). -/
def headResults : List GoPage → List JValue
  | [] => []
  | p :: _ => p.results

/-- The injected fetch capability serves this chain of pages: the call at
the given cursor yields the chain's first page, pages before the last
report `has_more = true` and the last reports `false`, and each later
page is served at the previous page's `next_cursor`. -/
inductive FetchChain (fetch : GoStr → Except GoStr JObjT) : GoStr → List GoPage → Prop
  | last (c : GoStr) (p : GoPage) :
      p.hasMore = false → fetch c = .ok (pageToResult p) → FetchChain fetch c [p]
  | more (c : GoStr) (p : GoPage) (ps : List GoPage) :
      p.hasMore = true → fetch c = .ok (pageToResult p) →
      FetchChain fetch p.nextCursor ps → FetchChain fetch c (p :: ps)

/-- A concrete three-page fetch source used to exhibit the pagination
behavior: pages 1 and 2 report `has_more`, page 3 does not. -/
def fetchEx : GoStr → Except GoStr JObjT := fun c =>
  if c = str "" then
    .ok (pageToResult ⟨[.str (str "a1"), .str (str "a2")], true, str "c1"⟩)
  else if c = str "c1" then
    .ok (pageToResult ⟨[.str (str "b1")], true, str "c2"⟩)
  else if c = str "c2" then
    .ok (pageToResult ⟨[.str (str "c1v")], false, str ""⟩)
  else .error (str "unexpected cursor")

/-- Dash insertion at positions 8, 12, 16, 20 — the canonical dashed
UUID form as the spec describes it (comparison definition written from
the spec's words, to be measured against `ResolveID`'s behavior). -/
def specDashed (s : GoStr) : GoStr :=
  s.take 8 ++ '-' :: ((s.drop 8).take 4 ++ '-' ::
    ((s.drop 12).take 4 ++ '-' :: ((s.drop 16).take 4 ++ '-' :: s.drop 20)))

/-! ## Bridge lemmas for the string model -/

/-- `goHasPrefix` agrees with `List.IsPrefix`. -/
theorem goHasPrefix_iff : ∀ (s pre : GoStr), goHasPrefix s pre = true ↔ pre <+: s
  | _, [] => by simp [goHasPrefix]
  | [], _ :: _ => by simp [goHasPrefix]
  | c :: cs, p :: ps => by
    show (decide (p = c) && goHasPrefix cs ps) = true ↔ _
    rw [Bool.and_eq_true, decide_eq_true_iff, goHasPrefix_iff cs ps, List.cons_prefix_cons]

/-- `goIndexAux` finds an index exactly when the pattern occurs. -/
theorem goIndexAux_isSome_iff : ∀ (s sub : GoStr) (i : Nat),
    (goIndexAux sub s i).isSome = true ↔ sub <:+: s
  | [], sub, i => by
    rw [goIndexAux]
    split
    · rename_i h
      simp only [Option.isSome_some, true_iff]
      exact ((goHasPrefix_iff [] sub).mp h).isInfix
    · rename_i h
      constructor
      · intro h'
        simp at h'
      · intro hinf
        have hs : sub = [] := by simpa using hinf.sublist
        subst hs
        exact (h rfl).elim
  | c :: cs, sub, i => by
    rw [goIndexAux]
    split
    · rename_i h
      simp only [Option.isSome_some, true_iff]
      exact ((goHasPrefix_iff (c :: cs) sub).mp h).isInfix
    · rename_i h
      show (goIndexAux sub cs (i + 1)).isSome = true ↔ _
      rw [goIndexAux_isSome_iff cs sub (i + 1), List.infix_cons_iff]
      constructor
      · exact Or.inr
      · rintro (hpre | hinf)
        · exact absurd ((goHasPrefix_iff (c :: cs) sub).mpr hpre) h
        · exact hinf

/-- `goContains` agrees with `List.IsInfix`. -/
theorem goContains_iff (s sub : GoStr) : goContains s sub = true ↔ sub <:+: s :=
  goIndexAux_isSome_iff s sub 0

/-- Boolean equality on Go strings agrees with `decide` of equality. -/
theorem beq_eq_decide_go (a b : GoStr) : (a == b) = decide (a = b) := by
  by_cases h : a = b <;> simp [h]

/-! ## Claim theorems -/

/-- C1 (counterexample): composing `extractPropertyValue` directly with
`buildPropertyValue` does not return the encoded value: the built map
carries no `type` tag, so extraction returns `""`; and even on the wire
shape with the tag added, a checkbox decodes to a glyph, never to the
encoded string. -/
theorem c1_counterexample :
    extractPropertyValue (buildPropertyValue (str "select") (str "x")) = [] ∧
    str "x" ≠ [] ∧
    extractPropertyValue
      (withTypeTag (str "checkbox") (buildPropertyValue (str "checkbox") (str "true"))) =
      str "✓" ∧
    str "✓" ≠ str "true" :=
  ⟨rfl, by decide, rfl, by decide⟩

/-- C1 (amended): on the wire shape — the built payload together with
its `type` tag — decode ∘ encode is the identity for select, status,
url, email and phone_number; for checkbox the composition yields the
glyph rendering of the parsed boolean rather than the original string. -/
theorem c1_roundtrip (v : GoStr) :
    extractPropertyValue (withTypeTag (str "select") (buildPropertyValue (str "select") v)) = v ∧
    extractPropertyValue (withTypeTag (str "status") (buildPropertyValue (str "status") v)) = v ∧
    extractPropertyValue (withTypeTag (str "url") (buildPropertyValue (str "url") v)) = v ∧
    extractPropertyValue (withTypeTag (str "email") (buildPropertyValue (str "email") v)) = v ∧
    extractPropertyValue
      (withTypeTag (str "phone_number") (buildPropertyValue (str "phone_number") v)) = v ∧
    extractPropertyValue
      (withTypeTag (str "checkbox") (buildPropertyValue (str "checkbox") v)) =
      (if v = str "true" ∨ v = str "1" ∨ v = str "yes" then str "✓" else str "✗") := by
  refine ⟨rfl, rfl, rfl, rfl, rfl, ?_⟩
  show (if (v == str "true" || v == str "1" || v == str "yes") = true
        then str "✓" else str "✗") = _
  by_cases h1 : v = str "true"
  · subst h1; rfl
  by_cases h2 : v = str "1"
  · subst h2; rfl
  by_cases h3 : v = str "yes"
  · subst h3; rfl
  simp [h1, h2, h3]

/-- C4 (counterexample): encoding the empty string at `multi_select`
produces one option with an empty name, not an empty option list
(`strings.Split("", ",")` is `[""]`). -/
theorem c4_counterexample :
    multiSelectNames (buildPropertyValue (str "multi_select") []) = some [[]] ∧
    some [([] : GoStr)] ≠ some ([] : List GoStr) :=
  ⟨rfl, by decide⟩

/-- C4 (amended): the `multi_select` encoding's option names are exactly
the comma-split segments of the input with surrounding whitespace
trimmed, in order; `"a, b ,c"` encodes to options named `a`, `b`, `c`;
the empty input yields one option with an empty name. -/
theorem c4_multi_select (v : GoStr) :
    multiSelectNames (buildPropertyValue (str "multi_select") v) =
      some ((goSplitChar ',' v).map goTrimSpace) ∧
    multiSelectNames (buildPropertyValue (str "multi_select") (str "a, b ,c")) =
      some [str "a", str "b", str "c"] := by
  constructor
  · rw [show multiSelectNames (buildPropertyValue (str "multi_select") v) =
        some (((goSplitChar ',' v).map fun n =>
          JValue.obj [(str "name", .str (goTrimSpace n))]).map fun o =>
            match o with | .obj e => getStrD e (str "name") | _ => []) from rfl,
      List.map_map]
    exact rfl
  · rfl

/-- C5: the numbered-list rule slices `line[:5]` after checking only
`len(line) > 2`, so the 4-character line `1. x` panics with a
slice-bounds violation instead of producing a numbered_list_item; on a
long enough line (`12. hello`) the rule produces the numbered item with
the text after the first `". "`. -/
theorem c5_short_numbered_line_panics :
    parseMarkdownToBlocks (str "1. x") = .error .sliceOutOfRange ∧
    parseMarkdownToBlocks (str "12. hello") =
      .ok [makeTextBlock (str "numbered_list_item") (str "hello")] :=
  ⟨rfl, rfl⟩

/-- C6: the property codec's checkbox encoding and the filter compiler's
checkbox value parsing both produce `true` exactly on the case-sensitive
tokens `true`, `1`, `yes`, and therefore agree on every input. -/
theorem c6_checkbox_truth_set (x propName op : GoStr) :
    jGet (buildPropertyValue (str "checkbox") x) (str "checkbox") =
      some (.bool (decide (x = str "true" ∨ x = str "1" ∨ x = str "yes"))) ∧
    jGet (buildFilter propName (str "checkbox") op x) (str "checkbox") =
      some (.obj [(str "equals",
        .bool (decide (x = str "true" ∨ x = str "1" ∨ x = str "yes")))]) := by
  constructor
  · show some (JValue.bool (x == str "true" || x == str "1" || x == str "yes")) = _
    simp [beq_eq_decide_go, Bool.or_assoc]
  · show some (JValue.obj [(str "equals",
      .bool (x == str "true" || x == str "1" || x == str "yes"))]) = _
    simp [beq_eq_decide_go, Bool.or_assoc]

/-- C8: one compiled filter condition is used unwrapped; two or more are
wrapped in `{and: [...]}` preserving the caller's order; and the spec's
two-filter example compiles and combines exactly as described. -/
theorem c8_combine (c c2 : JValue) (cs : List JValue) :
    combineFilters [c] = some c ∧
    combineFilters (c :: c2 :: cs) = some (.obj [(str "and", .arr (c :: c2 :: cs))]) ∧
    parseFilter (str "Status=Done")
        [(str "Status", .obj [(str "type", .str (str "select"))]),
         (str "Priority", .obj [(str "type", .str (str "select"))])] =
      .ok [(str "property", .str (str "Status")),
           (str "select", .obj [(str "equals", .str (str "Done"))])] ∧
    parseFilter (str "Priority=High")
        [(str "Status", .obj [(str "type", .str (str "select"))]),
         (str "Priority", .obj [(str "type", .str (str "select"))])] =
      .ok [(str "property", .str (str "Priority")),
           (str "select", .obj [(str "equals", .str (str "High"))])] ∧
    combineFilters
        [.obj [(str "property", .str (str "Status")),
               (str "select", .obj [(str "equals", .str (str "Done"))])],
         .obj [(str "property", .str (str "Priority")),
               (str "select", .obj [(str "equals", .str (str "High"))])]] =
      some (.obj [(str "and", .arr
        [.obj [(str "property", .str (str "Status")),
               (str "select", .obj [(str "equals", .str (str "Done"))])],
         .obj [(str "property", .str (str "Priority")),
               (str "select", .obj [(str "equals", .str (str "High"))])]])]) :=
  ⟨rfl, rfl, rfl, rfl, rfl⟩

/-- C10 (counterexample): a `number`-tagged property whose payload has
the wrong dynamic type (here a string) is stringified via `%v`, not
mapped to the empty string — the `number` branch checks only presence
and non-nil-ness, unlike every other recognized tag. -/
theorem c10_counterexample :
    extractPropertyValue
      [(str "type", .str (str "number")), (str "number", .str (str "abc"))] = str "abc" ∧
    str "abc" ≠ [] :=
  ⟨rfl, by decide⟩

/-- C10 (amended): `extractPropertyValue` is total and returns `""` for
every unrecognized type tag (no rich_text fallback), for every missing
payload, for every wrong-typed payload of a recognized tag other than
`number`, and for a nil `number` payload; a non-nil `number` payload of
any dynamic type is stringified instead. -/
theorem c10_decoder_leniency (prop : JObjT) :
    (getStrD prop (str "type") ∉ recognizedTags → extractPropertyValue prop = []) ∧
    (∀ t, t ∈ recognizedTags → getStrD prop (str "type") = t → jGet prop t = none →
      extractPropertyValue prop = []) ∧
    (∀ t v, t ∈ recognizedTags → t ≠ str "number" → getStrD prop (str "type") = t →
      jGet prop t = some v → tagShapeOk t v = false → extractPropertyValue prop = []) ∧
    (getStrD prop (str "type") = str "number" → jGet prop (str "number") = some .null →
      extractPropertyValue prop = []) := by
  refine ⟨?_, ?_, ?_, ?_⟩
  · intro h
    simp only [recognizedTags, List.mem_cons, List.not_mem_nil, or_false] at h
    push_neg at h
    obtain ⟨h1, h2, h3, h4, h5, h6, h7, h8, h9, h10, h11, h12, h13, h14, h15, h16,
      h17, h18, h19⟩ := h
    simp only [extractPropertyValue]
    rw [if_neg h1, if_neg h2, if_neg h3, if_neg h4, if_neg h5, if_neg h6, if_neg h7,
      if_neg h8, if_neg h9, if_neg h10, if_neg h11, if_neg h12, if_neg h13, if_neg h14,
      if_neg h15, if_neg h16, if_neg h17, if_neg (not_or.mpr ⟨h18, h19⟩)]
  · intro t ht hpt hnone
    simp only [recognizedTags, List.mem_cons, List.not_mem_nil, or_false] at ht
    rcases ht with rfl | rfl | rfl | rfl | rfl | rfl | rfl | rfl | rfl | rfl | rfl |
      rfl | rfl | rfl | rfl | rfl | rfl | rfl | rfl <;>
      simp +decide [extractPropertyValue, hpt, hnone]
  · intro t v ht hne hpt hsome hshape
    simp only [recognizedTags, List.mem_cons, List.not_mem_nil, or_false] at ht
    rcases ht with rfl | rfl | rfl | rfl | rfl | rfl | rfl | rfl | rfl | rfl | rfl |
      rfl | rfl | rfl | rfl | rfl | rfl | rfl | rfl <;>
      first
      | exact absurd rfl hne
      | (cases v <;> simp_all +decide [extractPropertyValue, tagShapeOk])
  · intro hpt hnull
    simp +decide [extractPropertyValue, hpt, hnull]

/-- C10 witness: concrete instances of each leniency clause — an
unrecognized tag, a missing payload, a wrong-typed checkbox payload, a
wrong-typed (non-array) multi_select payload, and a nil number payload
all decode to the empty string. -/
theorem c10_witness :
    extractPropertyValue [(str "type", .str (str "bogus_tag"))] = [] ∧
    extractPropertyValue [(str "type", .str (str "select"))] = [] ∧
    extractPropertyValue
      [(str "type", .str (str "checkbox")), (str "checkbox", .str (str "x"))] = [] ∧
    extractPropertyValue
      [(str "type", .str (str "multi_select")),
       (str "multi_select", .str (str "x"))] = [] ∧
    extractPropertyValue
      [(str "type", .str (str "number")), (str "number", .null)] = [] :=
  ⟨(c10_decoder_leniency _).1 (by decide),
   (c10_decoder_leniency _).2.1 (str "select") (by decide) (by decide) (by decide),
   (c10_decoder_leniency _).2.2.1 (str "checkbox") (.str (str "x")) (by decide)
     (by decide) (by decide) (by decide) (by decide),
   (c10_decoder_leniency _).2.2.1 (str "multi_select") (.str (str "x")) (by decide)
     (by decide) (by decide) (by decide) (by decide),
   (c10_decoder_leniency _).2.2.2 (by decide) (by decide)⟩

/-- The operator loop is equivalent to: select the first table entry
whose token occurs anywhere in the expression, then split at that
token's first occurrence. -/
theorem parseFilterLoop_eq (expr : GoStr) (dbProps : JObjT) : ∀ l : List OpEntry,
    parseFilterLoop expr dbProps l =
      match l.find? (fun e => goContains expr e.op) with
      | none => .error .noOperatorFound
      | some e => applyOpAt expr dbProps e ((goIndex expr e.op).getD 0)
  | [] => rfl
  | e :: rest => by
    simp only [parseFilterLoop]
    cases h : goIndex expr e.op with
    | none =>
      have hc : goContains expr e.op = false := by simp [goContains, h]
      have hfind : List.find? (fun x => goContains expr x.op) (e :: rest) =
          List.find? (fun x => goContains expr x.op) rest := by
        simp [List.find?, hc]
      rw [hfind]
      exact parseFilterLoop_eq expr dbProps rest
    | some idx =>
      have hc : goContains expr e.op = true := by simp [goContains, h]
      have hfind : List.find? (fun x => goContains expr x.op) (e :: rest) = some e := by
        simp [List.find?, hc]
      rw [hfind]
      show applyOpAt expr dbProps e idx = _
      simp [h]

/-- `selectedOp` evaluated by chained occurrence tests, in table order. -/
theorem selectedOp_eval (expr : GoStr) :
    selectedOp expr =
      (if goContains expr (str ">=") then some ⟨str ">=", str "gte"⟩
       else if goContains expr (str "<=") then some ⟨str "<=", str "lte"⟩
       else if goContains expr (str "!=") then some ⟨str "!=", str "neq"⟩
       else if goContains expr (str "~=") then some ⟨str "~=", str "contains"⟩
       else if goContains expr (str "!~=") then some ⟨str "!~=", str "not_contains"⟩
       else if goContains expr (str ">") then some ⟨str ">", str "gt"⟩
       else if goContains expr (str "<") then some ⟨str "<", str "lt"⟩
       else if goContains expr (str "=") then some ⟨str "=", str "eq"⟩
       else none : Option OpEntry) := by
  simp only [selectedOp, operators]
  cases h1 : goContains expr (str ">=")
  case true => simp [List.find?, h1]
  case false =>
  cases h2 : goContains expr (str "<=")
  case true => simp [List.find?, h1, h2]
  case false =>
  cases h3 : goContains expr (str "!=")
  case true => simp [List.find?, h1, h2, h3]
  case false =>
  cases h4 : goContains expr (str "~=")
  case true => simp [List.find?, h1, h2, h3, h4]
  case false =>
  cases h5 : goContains expr (str "!~=")
  case true => simp [List.find?, h1, h2, h3, h4, h5]
  case false =>
  cases h6 : goContains expr (str ">")
  case true => simp [List.find?, h1, h2, h3, h4, h5, h6]
  case false =>
  cases h7 : goContains expr (str "<")
  case true => simp [List.find?, h1, h2, h3, h4, h5, h6, h7]
  case false =>
  cases h8 : goContains expr (str "=")
  case true => simp [List.find?, h1, h2, h3, h4, h5, h6, h7, h8]
  case false => simp [List.find?, h1, h2, h3, h4, h5, h6, h7, h8]

/-- `applyOpAt` never produces the no-operator error. -/
theorem applyOpAt_ne_noOp (expr : GoStr) (dbProps : JObjT) (e : OpEntry) (idx : Nat) :
    applyOpAt expr dbProps e idx ≠ .error .noOperatorFound := by
  simp only [applyOpAt]
  cases hj : jGet dbProps (goTrimSpace (expr.take idx)) with
  | none => exact fun hcontra => FilterError.noConfusion (Except.error.inj hcontra)
  | some v =>
    cases v with
    | obj pd => exact fun hcontra => Except.noConfusion hcontra
    | str a => exact fun hcontra => FilterError.noConfusion (Except.error.inj hcontra)
    | num a => exact fun hcontra => FilterError.noConfusion (Except.error.inj hcontra)
    | bool b => exact fun hcontra => FilterError.noConfusion (Except.error.inj hcontra)
    | null => exact fun hcontra => FilterError.noConfusion (Except.error.inj hcontra)
    | arr a => exact fun hcontra => FilterError.noConfusion (Except.error.inj hcontra)

/-- `applyOpAt` fails with the unknown-property error naming the trimmed
left-hand side exactly when the schema does not bind it to an object,
and succeeds exactly when it does. -/
theorem applyOpAt_unknown_iff (expr : GoStr) (dbProps : JObjT) (e : OpEntry) (idx : Nat) :
    (applyOpAt expr dbProps e idx =
        .error (.unknownProperty (goTrimSpace (expr.take idx))) ↔
      isObjBinding dbProps (goTrimSpace (expr.take idx)) = false) ∧
    ((∃ f, applyOpAt expr dbProps e idx = .ok f) ↔
      isObjBinding dbProps (goTrimSpace (expr.take idx)) = true) := by
  simp only [applyOpAt, isObjBinding]
  cases hj : jGet dbProps (goTrimSpace (expr.take idx)) with
  | none =>
    exact ⟨iff_of_true rfl rfl,
      iff_of_false (fun h => match h with | ⟨_, hf⟩ => Except.noConfusion hf)
        (fun hb => Bool.noConfusion hb)⟩
  | some v =>
    cases v with
    | obj pd =>
      exact ⟨iff_of_false (fun h => Except.noConfusion h) (fun hb => Bool.noConfusion hb),
        iff_of_true ⟨_, rfl⟩ rfl⟩
    | str a =>
      exact ⟨iff_of_true rfl rfl,
        iff_of_false (fun h => match h with | ⟨_, hf⟩ => Except.noConfusion hf)
          (fun hb => Bool.noConfusion hb)⟩
    | num a =>
      exact ⟨iff_of_true rfl rfl,
        iff_of_false (fun h => match h with | ⟨_, hf⟩ => Except.noConfusion hf)
          (fun hb => Bool.noConfusion hb)⟩
    | bool b =>
      exact ⟨iff_of_true rfl rfl,
        iff_of_false (fun h => match h with | ⟨_, hf⟩ => Except.noConfusion hf)
          (fun hb => Bool.noConfusion hb)⟩
    | null =>
      exact ⟨iff_of_true rfl rfl,
        iff_of_false (fun h => match h with | ⟨_, hf⟩ => Except.noConfusion hf)
          (fun hb => Bool.noConfusion hb)⟩
    | arr a =>
      exact ⟨iff_of_true rfl rfl,
        iff_of_false (fun h => match h with | ⟨_, hf⟩ => Except.noConfusion hf)
          (fun hb => Bool.noConfusion hb)⟩

/-- C2 (amended): `parseFilter` selects the first operator in the table
order `>=`, `<=`, `!=`, `~=`, `!~=`, `>`, `<`, `=` whose token occurs in
the expression and splits at that token's first occurrence; `!=` is
indeed selected in preference to the bare `=`, but `!~=` is never
selected, because every occurrence of `!~=` contains `~=`, which
precedes it in the table: an expression containing `!~=` splits at the
`~=` with the `!` absorbed into the left-hand side, compiling to the
`contains` mapping. -/
theorem c2_operator_selection :
    (∀ expr dbProps, parseFilter expr dbProps =
      match selectedOp expr with
      | none => .error .noOperatorFound
      | some e => applyOpAt expr dbProps e ((goIndex expr e.op).getD 0)) ∧
    (∀ expr, selectedOp expr ≠ some ⟨str "!~=", str "not_contains"⟩) ∧
    (∀ expr, goContains expr (str "!=") = true →
      selectedOp expr = some ⟨str ">=", str "gte"⟩ ∨
      selectedOp expr = some ⟨str "<=", str "lte"⟩ ∨
      selectedOp expr = some ⟨str "!=", str "neq"⟩) ∧
    parseFilter (str "A!~=B") [(str "A!", .obj [(str "type", .str (str "multi_select"))])] =
      .ok [(str "property", .str (str "A!")),
           (str "multi_select", .obj [(str "contains", .str (str "B"))])] := by
  refine ⟨fun expr dbProps => parseFilterLoop_eq expr dbProps operators, ?_, ?_, rfl⟩
  · intro expr h
    rw [selectedOp_eval] at h
    split_ifs at h with g1 g2 g3 g4 g5 g6 g7 g8
    · exact absurd h (by decide)
    · exact absurd h (by decide)
    · exact absurd h (by decide)
    · exact absurd h (by decide)
    · -- the `!~=` branch: its occurrence forces `~=` to occur, refuted by g4
      have h6 : goContains expr (str "~=") = true := by
        rw [goContains_iff] at g5 ⊢
        exact List.IsInfix.trans (by decide) g5
      exact absurd h6 g4
    · exact absurd h (by decide)
    · exact absurd h (by decide)
    · exact absurd h (by decide)
  · intro expr h
    rw [selectedOp_eval]
    split_ifs with g1 g2 <;>
      first
      | exact Or.inl rfl
      | exact Or.inr (Or.inl rfl)
      | exact Or.inr (Or.inr rfl)

/-- C2 (counterexample): an expression containing `!~=` does not compile
to the `does_not_contain` mapping: the scan selects the earlier `~=`
token and absorbs the `!` into the property name, producing a `contains`
filter for the property `A!` (and an unknown-property error if only `A`
is in the schema). -/
theorem c2_counterexample :
    parseFilter (str "A!~=B") [(str "A!", .obj [(str "type", .str (str "multi_select"))])] =
      .ok [(str "property", .str (str "A!")),
           (str "multi_select", .obj [(str "contains", .str (str "B"))])] ∧
    str "contains" ≠ str "does_not_contain" ∧
    parseFilter (str "A!~=B") [(str "A", .obj [(str "type", .str (str "multi_select"))])] =
      .error (.unknownProperty (str "A!")) :=
  ⟨rfl, by decide, rfl⟩

/-- C2 witness: on `x!=y` the hypothesis of the preference clause holds
and the selected operator is one of the first three table entries. -/
theorem c2_witness :
    goContains (str "x!=y") (str "!=") = true ∧
    (selectedOp (str "x!=y") = some ⟨str ">=", str "gte"⟩ ∨
     selectedOp (str "x!=y") = some ⟨str "<=", str "lte"⟩ ∨
     selectedOp (str "x!=y") = some ⟨str "!=", str "neq"⟩) :=
  ⟨by decide, c2_operator_selection.2.2.1 (str "x!=y") (by decide)⟩

/-- C7: `parseFilter` fails with the no-operator error iff no operator
token occurs in the expression (iff no table entry's token is
contained); once an operator is selected, it fails with the
unknown-property error naming the trimmed left-hand side iff the schema
does not bind that name to a property object, and succeeds iff it
does. -/
theorem c7_error_characterization (expr : GoStr) (dbProps : JObjT) :
    (parseFilter expr dbProps = .error .noOperatorFound ↔ selectedOp expr = none) ∧
    (selectedOp expr = none ↔ ∀ e ∈ operators, goContains expr e.op = false) ∧
    (∀ e, selectedOp expr = some e →
      (parseFilter expr dbProps = .error (.unknownProperty (lhsName expr e)) ↔
        isObjBinding dbProps (lhsName expr e) = false) ∧
      ((∃ f, parseFilter expr dbProps = .ok f) ↔
        isObjBinding dbProps (lhsName expr e) = true)) := by
  have hmain : parseFilter expr dbProps =
      match selectedOp expr with
      | none => .error .noOperatorFound
      | some e => applyOpAt expr dbProps e ((goIndex expr e.op).getD 0) :=
    parseFilterLoop_eq expr dbProps operators
  refine ⟨?_, ?_, ?_⟩
  · cases hsel : selectedOp expr with
    | none => rw [hsel] at hmain; simp [hmain]
    | some e =>
      rw [hsel] at hmain
      rw [hmain]
      exact iff_of_false (applyOpAt_ne_noOp expr dbProps e _) (by simp)
  · simp [selectedOp, List.find?_eq_none]
  · intro e hsel
    rw [hsel] at hmain
    rw [hmain]
    exact applyOpAt_unknown_iff expr dbProps e _

/-- C7 witness: `Bogus=1` against an empty schema selects `=` and fails
with the unknown-property error for `Bogus`; an expression with no
operator token fails with the no-operator error. -/
theorem c7_witness :
    (parseFilter (str "Bogus=1") [] =
        .error (.unknownProperty (lhsName (str "Bogus=1") ⟨str "=", str "eq"⟩)) ↔
      isObjBinding [] (lhsName (str "Bogus=1") ⟨str "=", str "eq"⟩) = false) ∧
    (parseFilter (str "no operators here") [] = .error .noOperatorFound ↔
      selectedOp (str "no operators here") = none) :=
  ⟨((c7_error_characterization (str "Bogus=1") []).2.2 ⟨str "=", str "eq"⟩ (by decide)).1,
   (c7_error_characterization (str "no operators here") []).1⟩

/-- The loop reads a page's results back out of its result map. -/
theorem getArrD_page (p : GoPage) :
    getArrD (pageToResult p) (str "results") = p.results := rfl

/-- The loop reads a page's continuation flag back out of its result map. -/
theorem getBoolD_page (p : GoPage) :
    getBoolD (pageToResult p) (str "has_more") = p.hasMore := rfl

/-- The loop reads a page's next cursor back out of its result map. -/
theorem getStrD_page (p : GoPage) :
    getStrD (pageToResult p) (str "next_cursor") = p.nextCursor := rfl

/-- With `all` set, the loop run on a fetch chain appends every page's
results, in order, to the accumulator. -/
theorem fetchLoop_all (fetch : GoStr → Except GoStr JObjT) :
    ∀ {c : GoStr} {ps : List GoPage}, FetchChain fetch c ps →
      ∀ (fuel : Nat) (acc : List JValue), ps.length ≤ fuel →
        fetchBlockChildrenLoop fetch fuel c true acc =
          some (.ok (acc ++ ps.flatMap GoPage.results)) := by
  intro c ps h
  induction h with
  | last c p hm hf =>
    intro fuel acc hfuel
    cases fuel with
    | zero => simp at hfuel
    | succ n =>
      simp [fetchBlockChildrenLoop, hf, getArrD_page, getBoolD_page, hm]
  | more c p ps hm hf hchain ih =>
    intro fuel acc hfuel
    cases fuel with
    | zero => simp at hfuel
    | succ n =>
      have hlen : ps.length ≤ n := by simp at hfuel; omega
      simp only [fetchBlockChildrenLoop, hf, getArrD_page, getBoolD_page, getStrD_page, hm]
      rw [show (!true || !true) = false from rfl]
      simp only [Bool.false_eq_true, if_false]
      rw [ih n (acc ++ p.results) hlen]
      simp [List.flatMap_cons, List.append_assoc]

/-- Without `all`, the loop stops after the first fetched page. -/
theorem fetchLoop_first (fetch : GoStr → Except GoStr JObjT)
    {c : GoStr} {ps : List GoPage} (h : FetchChain fetch c ps)
    (fuel : Nat) (acc : List JValue) (hfuel : 1 ≤ fuel) :
    fetchBlockChildrenLoop fetch fuel c false acc =
      some (.ok (acc ++ headResults ps)) := by
  cases fuel with
  | zero => simp at hfuel
  | succ n =>
    cases h with
    | last c p hm hf =>
      simp [fetchBlockChildrenLoop, hf, getArrD_page, getBoolD_page, headResults]
    | more c p ps hm hf hch =>
      simp [fetchBlockChildrenLoop, hf, getArrD_page, getBoolD_page, headResults]

/-- C3: when the injected fetch function serves a chain of pages (all
but the last reporting `has_more = true`, each fetched at the previous
page's `next_cursor`), running `fetchBlockChildren` with `all = true`
(stopEarly = false) returns the concatenation of every page's results in
original order, and with `all = false` (stopEarly = true) returns
exactly the first page's results. -/
theorem c3_pagination (fetch : GoStr → Except GoStr JObjT) (c : GoStr) (ps : List GoPage)
    (h : FetchChain fetch c ps) (fuel : Nat) (hfuel : ps.length ≤ fuel) :
    fetchBlockChildren fetch fuel c true = some (.ok (ps.flatMap GoPage.results)) ∧
    fetchBlockChildren fetch fuel c false = some (.ok (headResults ps)) := by
  have h1 : 1 ≤ fuel := by
    cases h <;> (simp at hfuel; omega)
  constructor
  · simpa using fetchLoop_all fetch h fuel [] hfuel
  · simpa using fetchLoop_first fetch h fuel [] h1

/-- C3 witness: the three-page source yields all pages' items in order
with `all = true` and only the first page's items with `all = false`. -/
theorem c3_witness :
    fetchBlockChildren fetchEx 3 (str "") true =
      some (.ok [.str (str "a1"), .str (str "a2"), .str (str "b1"), .str (str "c1v")]) ∧
    fetchBlockChildren fetchEx 3 (str "") false =
      some (.ok [.str (str "a1"), .str (str "a2")]) := by
  have hchain : FetchChain fetchEx (str "")
      [⟨[.str (str "a1"), .str (str "a2")], true, str "c1"⟩,
       ⟨[.str (str "b1")], true, str "c2"⟩,
       ⟨[.str (str "c1v")], false, str ""⟩] :=
    .more _ _ _ rfl rfl (.more _ _ _ rfl rfl (.last _ _ rfl rfl))
  have hc := c3_pagination fetchEx (str "") _ hchain 3 (by decide)
  simpa [headResults] using hc

/-- A hex-or-dash character is not whitespace. -/
theorem hexOrDash_not_space (c : Char) (h : hexOrDash c = true) : goIsSpace c = false := by
  cases hsp : goIsSpace c with
  | false => rfl
  | true =>
    exfalso
    simp only [goIsSpace, Bool.or_eq_true, decide_eq_true_eq] at hsp
    rcases hsp with ((((((rfl | rfl) | rfl) | rfl) | rfl) | rfl) | rfl) | rfl <;>
      exact absurd h (by decide)

/-- `dropWhile` is the identity when no element satisfies the predicate. -/
theorem dropWhile_eq_self_of (p : α → Bool) (l : List α)
    (h : ∀ c ∈ l, p c = false) : l.dropWhile p = l := by
  cases l with
  | nil => rfl
  | cons c cs =>
    rw [List.dropWhile_cons, h c (List.mem_cons_self c cs)]
    simp

/-- `TrimSpace` is the identity on strings with no whitespace characters. -/
theorem goTrimSpace_id (s : GoStr) (h : ∀ c ∈ s, goIsSpace c = false) :
    goTrimSpace s = s := by
  rw [goTrimSpace, dropWhile_eq_self_of _ s h,
    dropWhile_eq_self_of _ s.reverse (fun c hc => h c (List.mem_reverse.mp hc)),
    List.reverse_reverse]

/-- A string whose characters all lie in a class missing some character
of the pattern cannot contain the pattern. -/
theorem goContains_eq_false (s sub : GoStr) (bad : Char) (hmem : bad ∈ sub)
    (h : ∀ c ∈ s, hexOrDash c = true) (hbad : hexOrDash bad = false) :
    goContains s sub = false := by
  cases hc : goContains s sub with
  | false => rfl
  | true =>
    have hinf := (goContains_iff s sub).mp hc
    have hmem' : bad ∈ s := hinf.sublist.subset hmem
    rw [h bad hmem'] at hbad
    exact Bool.noConfusion hbad

/-- `takeHex` succeeds on a long enough all-hex region. -/
theorem takeHex_all (n : Nat) (s : GoStr) (hn : n ≤ s.length)
    (hhex : ∀ c ∈ s.take n, isHexDigitGo c = true) :
    takeHex n s = some (s.drop n) := by
  rw [takeHex, if_pos]
  exact ⟨by simp [List.length_take, Nat.min_eq_left hn],
    by rw [List.all_eq_true]; exact hhex⟩

/-- `takeHex` consumes an all-hex block of exactly the demanded length. -/
theorem takeHex_append (xs r : GoStr) (hx : ∀ c ∈ xs, isHexDigitGo c = true) :
    takeHex xs.length (xs ++ r) = some r := by
  rw [takeHex, if_pos ⟨by rw [List.take_left],
    by rw [List.take_left, List.all_eq_true]; exact hx⟩, List.drop_left]

/-- `optDash` is the identity on strings starting with a hex digit. -/
theorem optDash_hex (s : GoStr) (h : ∀ c ∈ s, isHexDigitGo c = true) :
    optDash s = s := by
  cases s with
  | nil => rfl
  | cons c r =>
    have hc := h c (List.mem_cons_self c r)
    have hd : ¬ (c = '-') := fun he => by subst he; exact absurd hc (by decide)
    simp [optDash, hd]

/-- `uuidRe` accepts a 32-character all-hex string with no dashes at
all, because every dash in the pattern is optional. -/
theorem uuidRe_dashless (s : GoStr) (hlen : s.length = 32)
    (hhex : ∀ c ∈ s, isHexDigitGo c = true) : uuidReMatches s = true := by
  have hhd : ∀ k, ∀ c ∈ s.drop k, isHexDigitGo c = true :=
    fun k c hc => hhex c (List.mem_of_mem_drop hc)
  have t8 : takeHex 8 s = some (s.drop 8) :=
    takeHex_all 8 s (by omega) (fun c hc => hhex c (List.mem_of_mem_take hc))
  have t12 : takeHex 4 (s.drop 8) = some (s.drop 12) := by
    rw [takeHex_all 4 _ (by simp [List.length_drop, hlen])
      (fun c hc => hhd 8 c (List.mem_of_mem_take hc)), List.drop_drop]
  have t16 : takeHex 4 (s.drop 12) = some (s.drop 16) := by
    rw [takeHex_all 4 _ (by simp [List.length_drop, hlen])
      (fun c hc => hhd 12 c (List.mem_of_mem_take hc)), List.drop_drop]
  have t20 : takeHex 4 (s.drop 16) = some (s.drop 20) := by
    rw [takeHex_all 4 _ (by simp [List.length_drop, hlen])
      (fun c hc => hhd 16 c (List.mem_of_mem_take hc)), List.drop_drop]
  have t32 : takeHex 12 (s.drop 20) = some [] := by
    rw [takeHex_all 12 _ (by simp [List.length_drop, hlen])
      (fun c hc => hhd 20 c (List.mem_of_mem_take hc)), List.drop_drop]
    rw [show (20 + 12 : Nat) = 32 from rfl, ← hlen, List.drop_length]
  rw [uuidReMatches, t8]
  simp only [Option.bind_eq_bind, Option.some_bind]
  rw [optDash_hex _ (hhd 8), t12]
  simp only [Option.some_bind]
  rw [optDash_hex _ (hhd 12), t16]
  simp only [Option.some_bind]
  rw [optDash_hex _ (hhd 16), t20]
  simp only [Option.some_bind]
  rw [optDash_hex _ (hhd 20), t32]
  simp only [Option.some_bind]
  rfl

/-- `optDash` consumes a leading dash. -/
theorem optDash_dash (r : GoStr) : optDash ('-' :: r) = r := by simp [optDash]

/-- `uuidRe` accepts the canonically dashed form of a 32-character
all-hex string. -/
theorem uuidRe_dashed (s : GoStr) (hlen : s.length = 32)
    (hhex : ∀ c ∈ s, isHexDigitGo c = true) :
    uuidReMatches (specDashed s) = true := by
  have hhd : ∀ k, ∀ c ∈ s.drop k, isHexDigitGo c = true :=
    fun k c hc => hhex c (List.mem_of_mem_drop hc)
  have hht : ∀ k, ∀ c ∈ (s.drop k).take 4, isHexDigitGo c = true :=
    fun k c hc => hhd k c (List.mem_of_mem_take hc)
  have l8 : (s.take 8).length = 8 := by simp [List.length_take, hlen]
  have l4 : ∀ k, k ≤ 28 → ((s.drop k).take 4).length = 4 := by
    intro k hk
    simp [List.length_take, List.length_drop, hlen]
    omega
  have t8 := takeHex_append (s.take 8)
    ('-' :: ((s.drop 8).take 4 ++ '-' :: ((s.drop 12).take 4 ++ '-' ::
      ((s.drop 16).take 4 ++ '-' :: s.drop 20))))
    (fun c hc => hhex c (List.mem_of_mem_take hc))
  rw [l8] at t8
  have t12 := takeHex_append ((s.drop 8).take 4)
    ('-' :: ((s.drop 12).take 4 ++ '-' :: ((s.drop 16).take 4 ++ '-' :: s.drop 20))) (hht 8)
  rw [l4 8 (by omega)] at t12
  have t16 := takeHex_append ((s.drop 12).take 4)
    ('-' :: ((s.drop 16).take 4 ++ '-' :: s.drop 20)) (hht 12)
  rw [l4 12 (by omega)] at t16
  have t20 := takeHex_append ((s.drop 16).take 4) ('-' :: s.drop 20) (hht 16)
  rw [l4 16 (by omega)] at t20
  have t32 : takeHex 12 (s.drop 20) = some [] := by
    rw [takeHex_all 12 _ (by simp [List.length_drop, hlen])
      (fun c hc => hhd 20 c (List.mem_of_mem_take hc)), List.drop_drop]
    rw [show (20 + 12 : Nat) = 32 from rfl, ← hlen, List.drop_length]
  rw [uuidReMatches, specDashed]
  rw [t8]
  simp only [Option.bind_eq_bind, Option.some_bind]
  rw [optDash_dash, t12]
  simp only [Option.some_bind]
  rw [optDash_dash, t16]
  simp only [Option.some_bind]
  rw [optDash_dash, t20]
  simp only [Option.some_bind]
  rw [optDash_dash, t32]
  simp only [Option.some_bind]
  rfl

/-- Every character of the dashed form is a hex digit or a dash. -/
theorem specDashed_chars (s : GoStr) (hhex : ∀ c ∈ s, isHexDigitGo c = true) :
    ∀ c ∈ specDashed s, hexOrDash c = true := by
  intro c hc
  simp only [specDashed, List.mem_append, List.mem_cons] at hc
  rcases hc with h | rfl | h | rfl | h | rfl | h | rfl | h
  · simp [hexOrDash, hhex c (List.mem_of_mem_take h)]
  · decide
  · simp [hexOrDash, hhex c (List.mem_of_mem_drop (List.mem_of_mem_take h))]
  · decide
  · simp [hexOrDash, hhex c (List.mem_of_mem_drop (List.mem_of_mem_take h))]
  · decide
  · simp [hexOrDash, hhex c (List.mem_of_mem_drop (List.mem_of_mem_take h))]
  · decide
  · simp [hexOrDash, hhex c (List.mem_of_mem_drop h)]

/-- `formatUUID` never panics: its slicing is guarded by the length
check. -/
theorem formatUUID_isOk (id0 : GoStr) : (formatUUID id0).isOk = true := by
  by_cases h : (id0.filter fun c => c != '-').length = 32
  · simp [formatUUID, h, goSlice, bind, Except.bind, Except.isOk, Except.toBool,
      pure, Except.pure]
  · simp [formatUUID, h, Except.isOk, Except.toBool]

/-- `ResolveID` never panics on any input. -/
theorem resolveID_isOk (input : GoStr) : (ResolveID input).isOk = true := by
  simp only [ResolveID]
  cases hm : (if goContains (goTrimSpace input) (str "notion.so") ||
      goContains (goTrimSpace input) (str "notion.site")
      then findURLCapture (goTrimSpace input) else none) with
  | some m => exact formatUUID_isOk m
  | none =>
    show (if uuidReMatches (goTrimSpace input) then Except.ok (goTrimSpace input)
          else if plainIDMatches (goTrimSpace input) then formatUUID (goTrimSpace input)
          else .ok (goTrimSpace input)).isOk = true
    split
    · rfl
    · split
      · exact formatUUID_isOk _
      · rfl

/-- C9 (counterexample): on the repository's own test vector, a dashless
32-hex identifier resolves to itself — dashes are not inserted, because
`uuidRe`'s dashes are all optional and its branch returns the input
unchanged — so `ResolveID(s) = dashed(s)` fails. -/
theorem c9_counterexample :
    ResolveID (str "c9e9f681ec8e4eb7be25bbbe479b05b0") =
      .ok (str "c9e9f681ec8e4eb7be25bbbe479b05b0") ∧
    specDashed (str "c9e9f681ec8e4eb7be25bbbe479b05b0") =
      str "c9e9f681-ec8e-4eb7-be25-bbbe479b05b0" ∧
    (str "c9e9f681ec8e4eb7be25bbbe479b05b0" : GoStr) ≠
      str "c9e9f681-ec8e-4eb7-be25-bbbe479b05b0" :=
  ⟨rfl, rfl, by decide⟩

/-- C9 (amended): for every 32-character lowercase-hex string, the
dashed form resolves to itself and the dashless form also resolves to
itself (unchanged, without dash insertion); and `ResolveID` is a total
function that never panics on any input. -/
theorem c9_resolve (s : GoStr) (hlen : s.length = 32)
    (hhex : ∀ c ∈ s, isHexDigitGo c = true) :
    ResolveID (specDashed s) = .ok (specDashed s) ∧
    ResolveID s = .ok s ∧
    ∀ input, (ResolveID input).isOk = true := by
  have hhexOD : ∀ c ∈ s, hexOrDash c = true := fun c hc => by
    simp [hexOrDash, hhex c hc]
  have hsd := specDashed_chars s hhex
  refine ⟨?_, ?_, resolveID_isOk⟩
  · have htrim : goTrimSpace (specDashed s) = specDashed s :=
      goTrimSpace_id _ (fun c hc => hexOrDash_not_space c (hsd c hc))
    have hc1 : goContains (specDashed s) (str "notion.so") = false :=
      goContains_eq_false _ _ 'n' (by decide) hsd (by decide)
    have hc2 : goContains (specDashed s) (str "notion.site") = false :=
      goContains_eq_false _ _ 'n' (by decide) hsd (by decide)
    simp [ResolveID, htrim, hc1, hc2, uuidRe_dashed s hlen hhex]
  · have htrim : goTrimSpace s = s :=
      goTrimSpace_id _ (fun c hc => hexOrDash_not_space c (hhexOD c hc))
    have hc1 : goContains s (str "notion.so") = false :=
      goContains_eq_false _ _ 'n' (by decide) hhexOD (by decide)
    have hc2 : goContains s (str "notion.site") = false :=
      goContains_eq_false _ _ 'n' (by decide) hhexOD (by decide)
    simp [ResolveID, htrim, hc1, hc2, uuidRe_dashless s hlen hhex]

/-- C9 witness: both fixed-point equations hold on the repository's test
vector. -/
theorem c9_witness :
    ResolveID (specDashed (str "c9e9f681ec8e4eb7be25bbbe479b05b0")) =
      .ok (specDashed (str "c9e9f681ec8e4eb7be25bbbe479b05b0")) ∧
    ResolveID (str "c9e9f681ec8e4eb7be25bbbe479b05b0") =
      .ok (str "c9e9f681ec8e4eb7be25bbbe479b05b0") :=
  ⟨(c9_resolve (str "c9e9f681ec8e4eb7be25bbbe479b05b0") (by decide) (by decide)).1,
   (c9_resolve (str "c9e9f681ec8e4eb7be25bbbe479b05b0") (by decide) (by decide)).2.1⟩

end NotionCli
